import Mathlib

/-!
Verification of the jstream pull-based stream library (src/jstream.hpp and
src/main.cpp) against its natural-language specification.

The library is a chain of stream nodes. Every node exposes two operations,
transliterated here as pure functions on explicit state:

* `empty() : bool` — modelled as a `Bool`-valued function of the node state;
* `next()`         — modelled as a function from node state to
  `Option element × state`.  The C++ `next` of the pass-through stages returns
  a nullable handle (an iterator, a pointer, or a `std::optional`); an absent
  handle is modelled as `none`.

`IteratorStream` (and its subclasses `ContainerStream` / `ArrayStream`, which
only add constructors) holds a `[begin, end)` iterator pair into backing
storage.  Two views are used below:

* an index view `ItState` (backing list plus `b`/`e` cursors) for the claims
  that speak about begin/end positions themselves;
* a "remaining elements" view, where the state of a source is simply the list
  of elements of `[begin, end)` still to be consumed.  All pipeline claims are
  stated in this view.

Terminal operations in src/jstream.hpp drive a pipeline with
`while (!empty()) { ... next() ... }`; the loops below are transliterations of
those drivers composed with the `next`/`empty` of the cited node kinds.
-/

namespace JStream

/-- State of `IteratorStream` in the index view: the backing sequence `l` and
the `_begin`/`_end` cursors (`ContainerStream`/`ArrayStream` construct this
with `b = 0`, `e = l.length`). -/
structure ItState (α : Type) where
  l : List α
  b : Nat
  e : Nat
deriving Repr, DecidableEq

/-- `IteratorStream::empty` from src/jstream.hpp: `_begin == _end`. -/
def itEmpty {α : Type} (s : ItState α) : Bool := s.b == s.e

/-- `IteratorStream::next` from src/jstream.hpp: `return _begin++;` — yields
the current position and advances the cursor by one, unconditionally. -/
def itNext {α : Type} (s : ItState α) : Nat × ItState α :=
  (s.b, ⟨s.l, s.b + 1, s.e⟩)

/-- One pull on the source through the node protocol of src/jstream.hpp:
callers first check `empty()` and only then call `next()` and dereference the
returned iterator.  If `begin == end` the pull is absent and the state is
untouched; otherwise it is the dereferenced element at `begin` together with
the advanced state. -/
def itTryPull {α : Type} (s : ItState α) : Option α × ItState α :=
  if itEmpty s then (none, s) else (s.l[(itNext s).1]?, (itNext s).2)

/-- `IteratorStream::next` from src/main.cpp:
`return _begin != _end ? std::optional(*_begin++) : std::nullopt;`. -/
def mainIteratorNext {α : Type} (s : ItState α) : Option α × ItState α :=
  if s.b ≠ s.e then (s.l[s.b]?, ⟨s.l, s.b + 1, s.e⟩) else (none, s)

/-- `ContainerStream` constructor: delegates to `IteratorStream` with the
container's `begin()`/`end()`, i.e. positions `0` and `l.length`. -/
def containerStream {α : Type} (l : List α) : ItState α := ⟨l, 0, l.length⟩

/-- `ArrayStream` constructor: delegates to `IteratorStream` with
`std::begin(array)`/`std::end(array)`, i.e. positions `0` and `l.length`. -/
def arrayStream {α : Type} (l : List α) : ItState α := ⟨l, 0, l.length⟩

/-! ### Remaining-elements view of a source adapter

In the remaining-elements view the state of `IteratorStream` is the list of
elements of `[begin, end)` not yet consumed: a pull on a non-empty source
yields the head and leaves the tail. -/

/-- Source `next` in the remaining-elements view: the element at `begin`
(the head) and the advanced state (the tail); absent on an exhausted range. -/
def srcNext {α : Type} : List α → Option α × List α
  | [] => (none, [])
  | x :: xs => (some x, xs)

/-- `IteratorStream::empty` (`_begin == _end`) in the remaining-elements
view. -/
def srcEmpty {α : Type} (l : List α) : Bool := l.isEmpty

/-- `FilterStream::next` from src/jstream.hpp over a source parent:
`auto n = _stream.next(); while (n && !_f(*n)) n = _stream.next(); return n;`
— keep pulling the parent until an element satisfies the predicate (return
it) or the parent's pull is absent (return the absent handle). -/
def filterNext {α : Type} (P : α → Bool) : List α → Option α × List α
  | [] => (none, [])
  | x :: xs => if P x then (some x, xs) else filterNext P xs

/-- `FilterStream::empty` from src/jstream.hpp: `return _stream.empty();` —
it merely forwards the parent's emptiness and does not look at the
predicate. -/
def filterEmpty {α : Type} (l : List α) : Bool := srcEmpty l

/-!
`Stream::count` composed with `FilterStream` over a source
(src/jstream.hpp lines 53-62 and 114-124):

    std::size_t count = 0;
    while (!empty()) { count++; next(); }

`countFilter` is that driver loop fused with `FilterStream::next`:
`countFilter` is the top of the driver loop (on a non-empty parent it
increments the counter and starts a `FilterStream::next` call), while
`countFilterScan` is the filter's inner `while (n && !_f(*n))` loop still
scanning for an accepted element within the same driver iteration.
-/

mutual
/-- Top of the `Stream::count` driver loop over `filter(source)`: stop when
`FilterStream::empty()` (= the source's emptiness) holds, otherwise count one
iteration and perform one `FilterStream::next`. -/
def countFilter {α : Type} (P : α → Bool) : List α → Nat
  | [] => 0
  | x :: xs => 1 + (if P x then countFilter P xs else countFilterScan P xs)

/-- The filter's scanning loop within one driver iteration: keep consuming
parent elements; an accepted element ends the `next` call and returns to the
driver top, while parent exhaustion makes `next` return absent (the driver
then re-checks `empty()` and stops, having already counted). -/
def countFilterScan {α : Type} (P : α → Bool) : List α → Nat
  | [] => 0
  | x :: xs => if P x then countFilter P xs else countFilterScan P xs
end

/-- `TransformStream::next` from src/jstream.hpp over a source parent:
`if (!empty()) { _currentElement = _f(*_stream.next()); return &_currentElement; }
else return nullptr;`.  The single-slot buffer is modelled by returning the
freshly computed value itself. -/
def mapNext {α β : Type} (f : α → β) : List α → Option β × List α
  | [] => (none, [])
  | x :: xs => (some (f x), xs)

/-- Elements produced by driving `map(source)` to exhaustion with the
`while (!empty()) ... next()` protocol (`TransformStream::empty` is the
source's emptiness, so the guard is exact here). -/
def mapDrain {α β : Type} (f : α → β) : List α → List β
  | [] => []
  | x :: xs => f x :: mapDrain f xs

/-- Elements produced by driving `map(map(source, f), g)` to exhaustion: the
outer `TransformStream::next` computes `g(*inner.next())` and the inner one
computes `f(*source.next())`; both `empty()` calls forward to the source. -/
def mapMapDrain {α β γ : Type} (f : α → β) (g : β → γ) : List α → List γ
  | [] => []
  | x :: xs => g (f x) :: mapMapDrain f g xs

/-- `PeekStream::next` from src/jstream.hpp over a source parent: delegate to
the parent and return the element unchanged (the read-only side effect `_f`
is not modelled). -/
def peekNext {α : Type} : List α → Option α × List α := srcNext

/-- `LimitStream::next` from src/jstream.hpp over a source parent:
`if (_n > 0) { _n--; return _stream.next(); } return wrapper_type{};`. -/
def limitNext {α : Type} : Nat × List α → Option α × (Nat × List α)
  | (0, l) => (none, (0, l))
  | (n + 1, l) => ((srcNext l).1, (n, (srcNext l).2))

/-- `LimitStream::empty` from src/jstream.hpp:
`return _n <= 0 || _stream.empty();`. -/
def limitEmpty {α : Type} : Nat × List α → Bool
  | (n, l) => n == 0 || srcEmpty l

/-- The `while (!empty()) { ... next() ... }` driver over `limit(n, source)`,
fused with `LimitStream::next`: it returns the produced elements together
with the number of `next()` calls made on the upstream source.  Under the
guard, `_n > 0` and the source is non-empty, so each iteration consumes one
source element and decrements `_n`. -/
def limitDrain {α : Type} : Nat → List α → List α × Nat
  | 0, _ => ([], 0)
  | _ + 1, [] => ([], 0)
  | n + 1, x :: xs =>
    let r := limitDrain n xs
    (x :: r.1, r.2 + 1)

/-!
### FlatStream (src/jstream.hpp lines 158-189)

State: the remaining parent elements plus the optional current child
(`_currentSubStream`), itself in the remaining-elements view.  The expansion
function has shape `f : α → List β`, the child stream produced from a parent
element being again a source over a list.
-/

/-- The forced path of `FlatStream::next(bool force)`: pull the parent; if the
parent's pull is absent return `std::nullopt` leaving `_currentSubStream`
as-is; otherwise install `_f(element)` as the current child and pull it, and
if that child's pull is absent, recurse (`return subN ? subN : next(true)`). -/
def flatForce {α β : Type} (f : α → List β) :
    List α → Option (List β) → Option β × (List α × Option (List β))
  | [], ch => (none, ([], ch))
  | x :: xs, _ =>
    match f x with
    | [] => flatForce f xs (some [])
    | c :: cs => (some c, (xs, some cs))

/-- `FlatStream::next()` from src/jstream.hpp: if there is no current child,
take the forced path; otherwise pull the current child, and take the forced
path if that pull is absent. -/
def flatNext {α β : Type} (f : α → List β) :
    List α × Option (List β) → Option β × (List α × Option (List β))
  | (rem, none) => flatForce f rem none
  | (rem, some []) => flatForce f rem (some [])
  | (rem, some (c :: cs)) => (some c, (rem, some cs))

/-- `FlatStream::empty` from src/jstream.hpp:
`return _stream.empty() && (!_currentSubStream || _currentSubStream->empty());`
(an absent child counts as an empty child, which `getD []` renders). -/
def flatEmpty {α β : Type} (s : List α × Option (List β)) : Bool :=
  s.1.isEmpty && (s.2.getD []).isEmpty

/-!
Drivers over `flatMap(source, f)`.  Each is the corresponding
`while (!empty())` terminal-operation loop of `Stream` fused with
`FlatStream::next`: the `...Go` function is the top of the driver loop with
the current child installed (`some cs` becomes the bare list `cs`;  the
initial childless state is handled by the wrapper), and the `...Force`
function is inside `FlatStream::next(true)`, walking the parent while
children come up empty within a single driver iteration.
-/

mutual
/-- `Stream::count` driver at the top of its loop over `flatMap(source, f)`,
with current child `child`: stop when `FlatStream::empty()` holds, otherwise
count one iteration and perform one `FlatStream::next`. -/
def countFlatGo {α β : Type} (f : α → List β) (rem : List α) (child : List β) : Nat :=
  match rem, child with
  | rem, _ :: cs => 1 + countFlatGo f rem cs
  | [], [] => 0
  | x :: xs, [] => 1 + countFlatForce f x xs

/-- The forced path inside one counted driver iteration: expand `x`; a
non-empty child yields its head and control returns to the driver top; an
empty child advances the parent; parent exhaustion makes `next` return
absent, after which the driver's `empty()` check stops the loop. -/
def countFlatForce {α β : Type} (f : α → List β) (x : α) (xs : List α) : Nat :=
  match f x with
  | _ :: cs => countFlatGo f xs cs
  | [] =>
    match xs with
    | [] => 0
    | y :: ys => countFlatForce f y ys
end

/-- `Stream::count` over `flatMap(source, f)` started on source contents `S`
(no current child yet). -/
def countFlat {α β : Type} (f : α → List β) (S : List α) : Nat :=
  match S with
  | [] => 0
  | x :: xs => 1 + countFlatForce f x xs

mutual
/-- `Stream::sum` driver (`sum += next()->get()` guarded by `!empty()`) at
the top of its loop over `flatMap(source, f)`, with accumulator `acc` and
current child `child`.  If `next()` returns absent under a false `empty()`
guard, `next()->get()` dereferences an absent optional — undefined behaviour,
modelled as `none`. -/
def sumFlatGo {α : Type} (f : α → List Int) (acc : Int) (rem : List α) (child : List Int) :
    Option Int :=
  match rem, child with
  | rem, c :: cs => sumFlatGo f (acc + c) rem cs
  | [], [] => some acc
  | x :: xs, [] => sumFlatForce f acc x xs

/-- Forced path of the sum driver: as `countFlatForce`, but if the parent is
exhausted the pending `next()->get()` dereferences the absent result
(undefined behaviour, `none`). -/
def sumFlatForce {α : Type} (f : α → List Int) (acc : Int) (x : α) (xs : List α) :
    Option Int :=
  match f x with
  | c :: cs => sumFlatGo f (acc + c) xs cs
  | [] =>
    match xs with
    | [] => none
    | y :: ys => sumFlatForce f acc y ys
end

/-- `Stream::sum` over `flatMap(source, f)` started on source contents `S`:
zero-initialised accumulator (`value_type sum{}`). -/
def sumFlat {α : Type} (f : α → List Int) (S : List α) : Option Int :=
  match S with
  | [] => some 0
  | x :: xs => sumFlatForce f 0 x xs

mutual
/-- The sequence of elements produced by repeated `FlatStream::next` calls
until an absent pull, starting at the driver top with current child
`child`. -/
def flatDrainGo {α β : Type} (f : α → List β) (rem : List α) (child : List β) : List β :=
  match rem, child with
  | rem, c :: cs => c :: flatDrainGo f rem cs
  | [], [] => []
  | x :: xs, [] => flatDrainForce f x xs

/-- Forced path of the production sequence: expand `x`; a non-empty child
contributes its head, an empty child is skipped, parent exhaustion ends the
sequence. -/
def flatDrainForce {α β : Type} (f : α → List β) (x : α) (xs : List α) : List β :=
  match f x with
  | c :: cs => c :: flatDrainGo f xs cs
  | [] =>
    match xs with
    | [] => []
    | y :: ys => flatDrainForce f y ys
end

/-- The full sequence of elements `flatMap(source, f)` produces from source
contents `S` (repeated `FlatStream::next` until the pull is absent, starting
with no current child). -/
def flatDrain {α β : Type} (f : α → List β) (S : List α) : List β :=
  match S with
  | [] => []
  | x :: xs => flatDrainForce f x xs

/-!
`Stream::sum` over `source.filter(P).map(f)` — the pipeline of spec
Scenario A.  The `empty()` of every stage in this pipeline forwards to the
source, so the driver guard and `TransformStream::next`'s own `!empty()`
check are the same test.  Under a false guard `TransformStream::next`
computes `_f(*_stream.next())`; if the filter's pull came back absent this
dereferences the absent handle — undefined behaviour, modelled as `none`.
-/
mutual
/-- Sum driver at the top of its loop over `source.filter(P).map(f)`. -/
def sumFM {α : Type} (P : α → Bool) (f : α → Int) (acc : Int) : List α → Option Int
  | [] => some acc
  | x :: xs => if P x then sumFM P f (acc + f x) xs else sumFMScan P f acc xs

/-- The filter's scanning loop inside one `TransformStream::next` call of the
sum driver; if the source exhausts here, the filter's pull is absent and the
transform dereferences it (undefined behaviour, `none`). -/
def sumFMScan {α : Type} (P : α → Bool) (f : α → Int) (acc : Int) : List α → Option Int
  | [] => none
  | x :: xs => if P x then sumFM P f (acc + f x) xs else sumFMScan P f acc xs
end

/-!
### Match terminal operations over a source (src/jstream.hpp lines 72-97)

Each returns its result together with the remaining (unconsumed) source
state, so that how far the pipeline was drained is part of the statement.
-/

/-- `Stream::allMatch`: `bool ret = true; while (!empty()) ret &= f(next()->get());
return ret;` over a source — accumulates over every element, never breaking
out of the loop. -/
def allMatchGo {α : Type} (P : α → Bool) (ret : Bool) : List α → Bool × List α
  | [] => (ret, [])
  | x :: xs => allMatchGo P (ret && P x) xs

/-- `Stream::anyMatch`: `while (!empty()) if (f(next()->get())) return true;
return false;` over a source — returns `true` from inside the loop at the
first satisfying element. -/
def anyMatchGo {α : Type} (P : α → Bool) : List α → Bool × List α
  | [] => (false, [])
  | x :: xs => if P x then (true, xs) else anyMatchGo P xs

/-- `Stream::noneMatch`: `bool ret = true; while (!empty()) ret &= !f(next()->get());
return ret;` over a source — accumulates over every element, never breaking
out of the loop. -/
def noneMatchGo {α : Type} (P : α → Bool) (ret : Bool) : List α → Bool × List α
  | [] => (ret, [])
  | x :: xs => noneMatchGo P (ret && !P x) xs

/-!
### The node protocol pull, per node kind

`tryPull` in the spec's sense: one `empty()` check followed, when false, by
one `next()` call.  This is exactly how the terminal drivers of
src/jstream.hpp consume any node.  Each node kind below is taken over a
source parent (`FlatStream` with list-valued children), matching the
composition surface the claims quantify over.
-/

/-- One protocol pull on a source adapter. -/
def srcPull {α : Type} (l : List α) : Option α × List α :=
  if srcEmpty l then (none, l) else srcNext l

/-- One protocol pull on `filter(source, P)`. -/
def filterPull {α : Type} (P : α → Bool) (l : List α) : Option α × List α :=
  if filterEmpty l then (none, l) else filterNext P l

/-- One protocol pull on `map(source, f)`. -/
def mapPull {α β : Type} (f : α → β) (l : List α) : Option β × List α :=
  if srcEmpty l then (none, l) else mapNext f l

/-- One protocol pull on `peek(source, f)`. -/
def peekPull {α : Type} (l : List α) : Option α × List α :=
  if srcEmpty l then (none, l) else peekNext l

/-- One protocol pull on `limit(source, n)`. -/
def limitPull {α : Type} (s : Nat × List α) : Option α × (Nat × List α) :=
  if limitEmpty s then (none, s) else limitNext s

/-- One protocol pull on `flatMap(source, f)`. -/
def flatPull {α β : Type} (f : α → List β) (s : List α × Option (List β)) :
    Option β × (List α × Option (List β)) :=
  if flatEmpty s then (none, s) else flatNext f s

/-- The result of the `(k+1)`-th pull in a row starting from state `s`. -/
def pullN {α σ : Type} (pull : σ → Option α × σ) : σ → Nat → Option α × σ
  | s, 0 => pull s
  | s, k + 1 => pullN pull (pull s).2 k

/-- A state on which a pull is absent and which the pull does not change —
the permanently exhausted terminal state. -/
def Absorbed {α σ : Type} (pull : σ → Option α × σ) (s : σ) : Prop :=
  pull s = (none, s)

/-! ## Helper lemmas -/

/-- If no remaining element satisfies the predicate, the filter's scanning
loop consumes everything without producing, contributing no further count. -/
theorem countFilterScan_all_false {α : Type} (P : α → Bool) (l : List α)
    (h : ∀ y ∈ l, P y = false) : countFilterScan P l = 0 := by
  induction l with
  | nil => simp [countFilterScan]
  | cons x xs ih =>
    rw [countFilterScan, h x (List.mem_cons_self x xs)]
    simpa using ih fun y hy => h y (List.mem_cons_of_mem x hy)

/-- With an expansion function producing only empty children, the forced path
of the count driver walks the whole parent and adds nothing. -/
theorem countFlatForce_const_nil {α β : Type} (xs : List α) :
    ∀ x : α, countFlatForce (fun _ => ([] : List β)) x xs = 0 := by
  induction xs with
  | nil => intro x; simp [countFlatForce]
  | cons y ys ih => intro x; rw [countFlatForce]; simpa using ih y

/-! ## Claims -/

/-- Claim C1: the claim states `count(filter(S, P))` equals the number of
elements of `S` satisfying `P`.  The code falsifies it: `Stream::count`
counts one iteration per false `empty()` check and `FilterStream::empty`
only forwards the parent's emptiness, so on any non-empty source none of
whose elements satisfies the predicate the pipeline counts `1` where the
claim requires `0` (and over the raw pointer-based source the scan
additionally dereferences past the end). -/
theorem count_filter_all_rejected {α : Type} (P : α → Bool) (S : List α)
    (hne : S ≠ []) (hrej : ∀ y ∈ S, P y = false) : countFilter P S = 1 := by
  cases S with
  | nil => exact absurd rfl hne
  | cons x xs =>
    rw [countFilter, hrej x (List.mem_cons_self x xs)]
    simpa using countFilterScan_all_false P xs fun y hy => hrej y (List.mem_cons_of_mem x hy)

/-- Witness for C1 at the failing input `S = [1]`, `P` = is-even: the code
counts 1 although no element passes the filter. -/
theorem count_filter_all_rejected_witness :
    countFilter (fun n : Int => n % 2 == 0) [1] = 1 :=
  count_filter_all_rejected (fun n : Int => n % 2 == 0) [1] (by decide) (by decide)

/-- Claim C2: the claim states that a flatMap pipeline over any non-empty
source whose elements all expand to empty children yields `count() == 0`
(Scenario D uses an outer length of 5).  The code falsifies it: the count
driver's `empty()` guard is false while the parent still has elements, so one
iteration is counted before `FlatStream::next` discovers exhaustion — the
result is `1`, not `0`.  (`FlatStream::next` is also implemented with direct
recursion, `next(true)`, not the explicit loop the claim describes.) -/
theorem count_flatMap_empty_children {α β : Type} (S : List α) (hne : S ≠ []) :
    countFlat (fun _ => ([] : List β)) S = 1 := by
  cases S with
  | nil => exact absurd rfl hne
  | cons x xs => simp [countFlat, countFlatForce_const_nil]

/-- Witness for C2 at Scenario D's shape: an outer sequence of length 5,
every element expanding to an empty child — `count()` returns 1. -/
theorem count_flatMap_empty_children_witness :
    countFlat (fun _ : Int => ([] : List Int)) [0, 1, 2, 3, 4] = 1 :=
  count_flatMap_empty_children [0, 1, 2, 3, 4] (by decide)

/-- Claim C3: for every source adapter state, a pull is absent exactly when
`begin == end`, and otherwise yields the element at `begin` and advances
`begin` by one — for the `empty()`-guarded `next()` of src/jstream.hpp
(`itTryPull`) and for the self-contained `next()` of src/main.cpp
(`mainIteratorNext`); `ContainerStream`/`ArrayStream` only construct the
`IteratorStream` state spanning the whole backing sequence. -/
theorem source_adapter_tryPull {α : Type} (s : ItState α)
    (h1 : s.b ≤ s.e) (h2 : s.e ≤ s.l.length) :
    (s.b = s.e → itTryPull s = (none, s)) ∧
    (s.b ≠ s.e →
      (itTryPull s).1.isSome = true ∧ (itTryPull s).1 = s.l[s.b]? ∧
      (itTryPull s).2 = ⟨s.l, s.b + 1, s.e⟩) ∧
    (s.b = s.e → mainIteratorNext s = (none, s)) ∧
    (s.b ≠ s.e →
      (mainIteratorNext s).1.isSome = true ∧ (mainIteratorNext s).1 = s.l[s.b]? ∧
      (mainIteratorNext s).2 = ⟨s.l, s.b + 1, s.e⟩) ∧
    containerStream s.l = ⟨s.l, 0, s.l.length⟩ ∧
    arrayStream s.l = ⟨s.l, 0, s.l.length⟩ := by
  have hblen : s.b ≠ s.e → s.b < s.l.length := fun h =>
    Nat.lt_of_lt_of_le (Nat.lt_of_le_of_ne h1 h) h2
  refine ⟨?_, ?_, ?_, ?_, rfl, rfl⟩
  · intro h
    simp [itTryPull, itEmpty, h]
  · intro h
    simp [itTryPull, itEmpty, itNext, h, List.getElem?_eq_getElem (hblen h)]
  · intro h
    simp [mainIteratorNext, h]
  · intro h
    simp [mainIteratorNext, h, List.getElem?_eq_getElem (hblen h)]

/-- Witness for C3 on the concrete adapter state over `[10, 20]` with
`begin = 0`, `end = 2`: both pull implementations yield the element at
`begin`. -/
theorem source_adapter_tryPull_witness :
    (itTryPull (⟨[10, 20], 0, 2⟩ : ItState Int)).1 = some 10 ∧
    (mainIteratorNext (⟨[10, 20], 0, 2⟩ : ItState Int)).1 = some 10 := by
  have h := source_adapter_tryPull (⟨[10, 20], 0, 2⟩ : ItState Int) (by decide) (by decide)
  exact ⟨((h.2.1 (by decide)).2.1).trans (by decide),
         ((h.2.2.2.1 (by decide)).2.1).trans (by decide)⟩

/-- Claim C4: the claim states that a false `empty()` always makes the next
`next()` present, so the terminal operations' unguarded dereferences are
safe.  The code falsifies it: on a flatMap whose remaining children are all
empty, and on a filter none of whose remaining parent elements is accepted,
`empty()` is false yet `next()` is absent — the sum driver then dereferences
the absent pull (undefined behaviour, modelled as `none`). -/
theorem empty_guard_desync :
    flatEmpty (([0] : List Int), (none : Option (List Int))) = false ∧
    (flatNext (fun _ : Int => ([] : List Int)) ([0], none)).1 = none ∧
    sumFlat (fun _ : Int => ([] : List Int)) [0] = none ∧
    filterEmpty [(1 : Int)] = false ∧
    (filterNext (fun n : Int => n % 2 == 0) [1]).1 = none := by
  refine ⟨by decide, by decide, ?_, by decide, by decide⟩
  simp [sumFlat, sumFlatForce]

/-- The allMatch driver accumulates `ret &= P x` over every element and
drains the source completely. -/
theorem allMatchGo_eq {α : Type} (P : α → Bool) (l : List α) :
    ∀ ret : Bool, allMatchGo P ret l = (ret && l.all P, []) := by
  induction l with
  | nil => intro ret; simp [allMatchGo]
  | cons x xs ih => intro ret; rw [allMatchGo, ih]; simp [Bool.and_assoc]

/-- The noneMatch driver accumulates `ret &= !P x` over every element and
drains the source completely. -/
theorem noneMatchGo_eq {α : Type} (P : α → Bool) (l : List α) :
    ∀ ret : Bool, noneMatchGo P ret l = (ret && l.all fun y => !P y, []) := by
  induction l with
  | nil => intro ret; simp [noneMatchGo]
  | cons x xs ih => intro ret; rw [noneMatchGo, ih]; simp [Bool.and_assoc]

/-- anyMatch over a source with no satisfying element drains it and returns
false. -/
theorem anyMatchGo_all_false {α : Type} (P : α → Bool) (l : List α)
    (h : ∀ y ∈ l, P y = false) : anyMatchGo P l = (false, []) := by
  induction l with
  | nil => rfl
  | cons x xs ih =>
    rw [anyMatchGo, h x (List.mem_cons_self x xs)]
    simpa using ih fun y hy => h y (List.mem_cons_of_mem x hy)

/-- anyMatch returns true at the first satisfying element, leaving the
elements after it unconsumed. -/
theorem anyMatchGo_first {α : Type} (P : α → Bool) (S₁ S₂ : List α) (x : α)
    (h1 : ∀ y ∈ S₁, P y = false) (hx : P x = true) :
    anyMatchGo P (S₁ ++ x :: S₂) = (true, S₂) := by
  induction S₁ with
  | nil => simp [anyMatchGo, hx]
  | cons y ys ih =>
    rw [List.cons_append, anyMatchGo, h1 y (List.mem_cons_self y ys)]
    simpa using ih fun z hz => h1 z (List.mem_cons_of_mem y hz)

/-- Claim C5: `anyMatch` returns true and stops pulling at the first
satisfying element (returning false only after full exhaustion), while
`allMatch` and `noneMatch` drain the whole source before returning even when
an early element already decides the result; in particular
`allMatch([2,4,6,7,8], isEven)` returns false having pulled all 5 elements
(empty remaining state). -/
theorem match_terminal_behaviour {α : Type} (P : α → Bool) (S S₁ S₂ : List α) (x : α) :
    ((∀ y ∈ S₁, P y = false) → P x = true → anyMatchGo P (S₁ ++ x :: S₂) = (true, S₂)) ∧
    ((∀ y ∈ S, P y = false) → anyMatchGo P S = (false, [])) ∧
    allMatchGo P true S = (S.all P, []) ∧
    noneMatchGo P true S = (S.all fun y => !P y, []) ∧
    allMatchGo (fun n : Int => n % 2 == 0) true [2, 4, 6, 7, 8] = (false, []) :=
  ⟨fun h1 hx => anyMatchGo_first P S₁ S₂ x h1 hx,
   fun h => anyMatchGo_all_false P S h,
   by simpa using allMatchGo_eq P S true,
   by simpa using noneMatchGo_eq P S true,
   by decide⟩

/-- Witness for C5: anyMatch over `[1] ++ 2 :: [5]` with is-even stops right
after `2` (leaving `[5]` unpulled), and returns false on `[1, 3]` only after
draining it. -/
theorem match_terminal_behaviour_witness :
    anyMatchGo (fun n : Int => n % 2 == 0) ([1] ++ 2 :: [5]) = (true, [5]) ∧
    anyMatchGo (fun n : Int => n % 2 == 0) [1, 3] = (false, []) :=
  ⟨(match_terminal_behaviour (fun n : Int => n % 2 == 0) [1, 3] [1] [5] 2).1
      (by decide) (by decide),
   (match_terminal_behaviour (fun n : Int => n % 2 == 0) [1, 3] [1] [5] 2).2.1
      (by decide)⟩

/-- The limit driver produces the length-`n` prefix of the source and makes
at most `n` upstream pulls. -/
theorem limitDrain_spec {α : Type} :
    ∀ (n : Nat) (S : List α), (limitDrain n S).1 = S.take n ∧ (limitDrain n S).2 ≤ n
  | 0, S => by simp [limitDrain]
  | n + 1, [] => by simp [limitDrain]
  | n + 1, x :: xs => by
    have ih := limitDrain_spec n xs
    refine ⟨?_, ?_⟩
    · simp [limitDrain, ih.1]
    · simpa [limitDrain] using Nat.succ_le_succ ih.2

/-- Claim C6: `limit(n)` yields exactly `min(n, |S|)` elements (the length-n
prefix of the source), `limit(0)` yields an empty result regardless of the
parent's state, and the pipeline pulls at most `n` elements from its
upstream parent. -/
theorem limit_yields_min {α : Type} (n : Nat) (S : List α) :
    (limitDrain n S).1 = S.take n ∧
    (limitDrain n S).1.length = min n S.length ∧
    (limitDrain n S).2 ≤ n ∧
    limitDrain 0 S = ([], 0) := by
  obtain ⟨h1, h2⟩ := limitDrain_spec n S
  refine ⟨h1, ?_, h2, rfl⟩
  rw [h1]
  exact List.length_take n S

/-- The production sequence from driver-top state `(rem, some cs)` is `cs`
followed by the production from `(rem, some [])`/`(rem, none)`. -/
theorem flatDrainGo_append {α β : Type} (f : α → List β) (rem : List α) (cs : List β) :
    flatDrainGo f rem cs = cs ++ flatDrainGo f rem [] := by
  induction cs with
  | nil => simp
  | cons c cs ih => rw [flatDrainGo, ih]; simp

/-- The forced path's production is the expanded child followed by the
production of the rest of the parent. -/
theorem flatDrainForce_eq {α β : Type} (f : α → List β) (x : α) (xs : List α) :
    flatDrainForce f x xs = f x ++ flatDrainGo f xs [] := by
  cases xs with
  | nil =>
    rw [flatDrainForce.eq_1]
    cases hfx : f x with
    | nil => simp [flatDrainGo]
    | cons c cs => simp [flatDrainGo, flatDrainGo_append f [] cs]
  | cons y ys =>
    rw [flatDrainForce.eq_2]
    cases hfx : f x with
    | nil => simp [flatDrainGo]
    | cons c cs => simp [flatDrainGo, flatDrainGo_append f (y :: ys) cs]

/-- Driver-top production with an exhausted child equals the childless
production. -/
theorem flatDrainGo_nil_drain {α β : Type} (f : α → List β) (S : List α) :
    flatDrainGo f S [] = flatDrain f S := by
  cases S with
  | nil => simp [flatDrain, flatDrainGo]
  | cons x xs => simp [flatDrain, flatDrainGo]

/-- The elements `flatMap(source, f)` produces are exactly the concatenation
of the children `f x` in source order. -/
theorem flatDrain_eq_join {α β : Type} (f : α → List β) (S : List α) :
    flatDrain f S = (S.map f).flatten := by
  induction S with
  | nil => rfl
  | cons x xs ih =>
    show flatDrainForce f x xs = _
    rw [flatDrainForce_eq, flatDrainGo_nil_drain, ih]
    simp

/-- Claim C7: `flatMap(S, f)` produces exactly the depth-first concatenation
of the child sequences `f x` in the order the `x` appear in `S` (empty
children are skipped transparently, each child being consumed only until its
exhaustion); in particular the flatMap of two identity rows `[0..9]` sums to
90 under the sum driver. -/
theorem flatMap_depth_first_concat {α β : Type} (f : α → List β) (S : List α) :
    flatDrain f S = (S.map f).flatten ∧
    sumFlat (fun r : List Int => r)
      [[0, 1, 2, 3, 4, 5, 6, 7, 8, 9], [0, 1, 2, 3, 4, 5, 6, 7, 8, 9]] = some 90 :=
  ⟨flatDrain_eq_join f S, by simp [sumFlat, sumFlatGo, sumFlatForce]⟩

/-- Claim C8: the claim states `sum()` folds the domain's addition over all
produced elements from a zero seed, and that Scenario A —
`[0..9].filter(even).map(x*10).sum()` — returns 200.  The code falsifies the
scenario: after accumulating 200 the driver's `empty()` guard still sees the
unconsumed source element 9, the filter's pull comes back absent, and
`TransformStream::next` dereferences it (undefined behaviour, modelled as
`none`) instead of returning.  The second conjunct records the value the
claim expects from the same data. -/
theorem sum_scenarioA_out_of_bounds :
    sumFM (fun n : Int => n % 2 == 0) (fun n : Int => n * 10) 0
      [0, 1, 2, 3, 4, 5, 6, 7, 8, 9] = none ∧
    ((([0, 1, 2, 3, 4, 5, 6, 7, 8, 9] : List Int).filter fun n => n % 2 == 0).map
        fun n => n * 10).foldl (· + ·) 0 = 200 :=
  ⟨by simp [sumFM, sumFMScan], by decide⟩

/-- Claim C9: `map(map(S, f), g)` is element-wise equal to
`map(S, x -> g(f(x)))` — the two pipelines produce the same elements in the
same order. -/
theorem map_map_fusion {α β γ : Type} (f : α → β) (g : β → γ) (S : List α) :
    mapMapDrain f g S = mapDrain (fun x => g (f x)) S := by
  induction S with
  | nil => rfl
  | cons x xs ih => simp [mapMapDrain, mapDrain, ih]

/-- Repeated pulls on an absorbed (permanently exhausted) state keep
returning the absent result and the same state. -/
theorem pullN_absorbed {α σ : Type} (pull : σ → Option α × σ) (s : σ)
    (h : Absorbed pull s) : ∀ k : Nat, pullN pull s k = (none, s)
  | 0 => h
  | k + 1 => by
    rw [pullN, show (pull s).2 = s from congrArg Prod.snd h]
    exact pullN_absorbed pull s h k

/-- A source whose pull is absent is already in the absorbed state. -/
theorem srcPull_absorbed {α : Type} (l : List α) (h : (srcPull l).1 = none) :
    Absorbed srcPull ((srcPull l).2) := by
  cases l with
  | nil => simp [Absorbed, srcPull, srcEmpty, srcNext]
  | cons x xs => simp [srcPull, srcEmpty, srcNext] at h

/-- A filter pull that comes back absent has drained its parent. -/
theorem filterNext_none_nil {α : Type} (P : α → Bool) (l : List α)
    (h : (filterNext P l).1 = none) : (filterNext P l).2 = [] := by
  induction l with
  | nil => rfl
  | cons x xs ih =>
    by_cases hx : P x
    · simp [filterNext, hx] at h
    · rw [filterNext, if_neg hx] at h ⊢
      exact ih h

/-- A filter node whose pull is absent ends in the absorbed state. -/
theorem filterPull_absorbed {α : Type} (P : α → Bool) (l : List α)
    (h : (filterPull P l).1 = none) : Absorbed (filterPull P) ((filterPull P l).2) := by
  cases l with
  | nil => simp [Absorbed, filterPull, filterEmpty, srcEmpty]
  | cons x xs =>
    rw [filterPull, if_neg (by simp [filterEmpty, srcEmpty])] at h ⊢
    rw [filterNext_none_nil P (x :: xs) h]
    simp [Absorbed, filterPull, filterEmpty, srcEmpty]

/-- A map node whose pull is absent is already in the absorbed state. -/
theorem mapPull_absorbed {α β : Type} (f : α → β) (l : List α)
    (h : (mapPull f l).1 = none) : Absorbed (mapPull f) ((mapPull f l).2) := by
  cases l with
  | nil => simp [Absorbed, mapPull, srcEmpty]
  | cons x xs => simp [mapPull, srcEmpty, mapNext] at h

/-- A peek node whose pull is absent is already in the absorbed state. -/
theorem peekPull_absorbed {α : Type} (l : List α) (h : (peekPull l).1 = none) :
    Absorbed peekPull ((peekPull l).2) := by
  cases l with
  | nil => simp [Absorbed, peekPull, srcEmpty, peekNext, srcNext]
  | cons x xs => simp [peekPull, srcEmpty, peekNext, srcNext] at h

/-- A limit node whose pull is absent is already in the absorbed state. -/
theorem limitPull_absorbed {α : Type} (s : Nat × List α)
    (h : (limitPull s).1 = none) : Absorbed limitPull ((limitPull s).2) := by
  obtain ⟨n, l⟩ := s
  by_cases hg : limitEmpty (n, l) = true
  · rw [limitPull, if_pos hg]
    simp [Absorbed, limitPull, hg]
  · exfalso
    rw [limitPull, if_neg hg] at h
    match n, l with
    | 0, l => exact hg (by simp [limitEmpty])
    | n + 1, [] => exact hg (by simp [limitEmpty, srcEmpty])
    | n + 1, x :: xs => simp [limitNext, srcNext] at h

/-- The forced path of `FlatStream::next`, when its pull is absent, ends with
the parent drained and a child slot that is either untouched or holds an
exhausted child. -/
theorem flatForce_none {α β : Type} (f : α → List β) (rem : List α) :
    ∀ ch : Option (List β), (flatForce f rem ch).1 = none →
      (flatForce f rem ch).2.1 = [] ∧
      ((flatForce f rem ch).2.2 = ch ∨ (flatForce f rem ch).2.2 = some []) := by
  induction rem with
  | nil => intro ch _; exact ⟨rfl, Or.inl rfl⟩
  | cons x xs ih =>
    intro ch h
    rw [flatForce] at h ⊢
    cases hfx : f x with
    | nil =>
      rw [hfx] at h
      rcases ih (some []) h with ⟨h1, h2⟩
      rcases h2 with h2 | h2
      · exact ⟨h1, Or.inr h2⟩
      · exact ⟨h1, Or.inr h2⟩
    | cons c cs =>
      rw [hfx] at h
      exact Option.noConfusion h

/-- A flat node whose pull is absent ends in the absorbed state. -/
theorem flatPull_absorbed {α β : Type} (f : α → List β) (s : List α × Option (List β))
    (h : (flatPull f s).1 = none) : Absorbed (flatPull f) ((flatPull f s).2) := by
  obtain ⟨rem, ch⟩ := s
  by_cases hg : flatEmpty ((rem, ch) : List α × Option (List β)) = true
  · rw [flatPull, if_pos hg]
    simp [Absorbed, flatPull, hg]
  · rw [flatPull, if_neg hg] at h ⊢
    have key : flatEmpty ((flatNext f (rem, ch)).2) = true := by
      match ch with
      | none =>
        rw [show flatNext f (rem, none) = flatForce f rem none from rfl] at h ⊢
        rcases flatForce_none f rem none h with ⟨h1, h2⟩
        rcases h2 with h2 | h2 <;> simp [flatEmpty, h1, h2]
      | some [] =>
        rw [show flatNext f (rem, some []) = flatForce f rem (some []) from rfl] at h ⊢
        rcases flatForce_none f rem (some []) h with ⟨h1, h2⟩
        rcases h2 with h2 | h2 <;> simp [flatEmpty, h1, h2]
      | some (c :: cs) => simp [flatNext] at h
    simp [Absorbed, flatPull, key]

/-- Claim C10: for every node kind (source adapter, filter, map, peek,
limit, flatMap), once a protocol pull signals exhaustion, every subsequent
pull on that node also signals exhaustion — the node never produces an
element again. -/
theorem exhaustion_idempotent :
    (∀ (α : Type) (l : List α) (k : Nat),
      (srcPull l).1 = none → (pullN srcPull ((srcPull l).2) k).1 = none) ∧
    (∀ (α : Type) (P : α → Bool) (l : List α) (k : Nat),
      (filterPull P l).1 = none → (pullN (filterPull P) ((filterPull P l).2) k).1 = none) ∧
    (∀ (α β : Type) (f : α → β) (l : List α) (k : Nat),
      (mapPull f l).1 = none → (pullN (mapPull f) ((mapPull f l).2) k).1 = none) ∧
    (∀ (α : Type) (l : List α) (k : Nat),
      (peekPull l).1 = none → (pullN peekPull ((peekPull l).2) k).1 = none) ∧
    (∀ (α : Type) (s : Nat × List α) (k : Nat),
      (limitPull s).1 = none → (pullN limitPull ((limitPull s).2) k).1 = none) ∧
    (∀ (α β : Type) (f : α → List β) (s : List α × Option (List β)) (k : Nat),
      (flatPull f s).1 = none → (pullN (flatPull f) ((flatPull f s).2) k).1 = none) :=
  ⟨fun α l k h => by rw [pullN_absorbed _ _ (srcPull_absorbed l h) k],
   fun α P l k h => by rw [pullN_absorbed _ _ (filterPull_absorbed P l h) k],
   fun α β f l k h => by rw [pullN_absorbed _ _ (mapPull_absorbed f l h) k],
   fun α l k h => by rw [pullN_absorbed _ _ (peekPull_absorbed l h) k],
   fun α s k h => by rw [pullN_absorbed _ _ (limitPull_absorbed s h) k],
   fun α β f s k h => by rw [pullN_absorbed _ _ (flatPull_absorbed f s h) k]⟩

/-- Witness for C10: concrete exhausted states of each node kind stay
exhausted over repeated pulls. -/
theorem exhaustion_idempotent_witness :
    (pullN srcPull ((srcPull ([] : List Int)).2) 3).1 = none ∧
    (pullN (filterPull fun n : Int => n % 2 == 0)
      ((filterPull (fun n : Int => n % 2 == 0) [1]).2) 2).1 = none ∧
    (pullN (mapPull fun n : Int => n * 2)
      ((mapPull (fun n : Int => n * 2) ([] : List Int)).2) 2).1 = none ∧
    (pullN peekPull ((peekPull ([] : List Int)).2) 2).1 = none ∧
    (pullN limitPull ((limitPull ((0, [5]) : Nat × List Int)).2) 2).1 = none ∧
    (pullN (flatPull fun _ : Int => ([] : List Int))
      ((flatPull (fun _ : Int => ([] : List Int)) ([0], none)).2) 2).1 = none :=
  ⟨exhaustion_idempotent.1 Int [] 3 (by decide),
   exhaustion_idempotent.2.1 Int (fun n : Int => n % 2 == 0) [1] 2 (by decide),
   exhaustion_idempotent.2.2.1 Int Int (fun n : Int => n * 2) [] 2 (by decide),
   exhaustion_idempotent.2.2.2.1 Int [] 2 (by decide),
   exhaustion_idempotent.2.2.2.2.1 Int (0, [5]) 2 (by decide),
   exhaustion_idempotent.2.2.2.2.2 Int Int (fun _ : Int => ([] : List Int)) ([0], none) 2
     (by decide)⟩

end JStream
